import Mathlib

/-!
# Verification of the nvpy local note store and sync engine

Shallow embedding of `src/nvpy/notes_db.py` (the `Note` record, the
foreground mutation operations of `NotesDB`, the partial-sync worker
`_worker_sync_to_server`, the recovery logic of `update_note_to_server`,
the prune step of `sync_full_unthreaded`, and the `FileStore` load/save
paths), together with theorems settling the specification claims.

Modelling conventions:
* A Python `Note` is a `dict`; the program only ever touches a fixed set
  of keys, so we embed it as a record whose every field is an `Option`
  (absent key = `none`).  `dict.update` becomes a field-wise merge that
  prefers the right argument where present.
* Timestamps (`time.time()` floats) are modelled as `Nat`; the code only
  compares them, so any linear order is faithful.  Each operation that
  reads the clock takes the current time as an explicit argument.
* A Python expression that can raise `KeyError` / `ValueError` is
  modelled in the `Option` monad (`none` = the exception propagates).
* The in-memory table `self.notes` is an association list
  `List (String × Note)` with `List.lookup` for `self.notes[key]`.
* The server boundary (`simplenote.update_note` / `get_note`) is passed
  in as explicit response values (`Except` of an error object or a note).
-/

set_option autoImplicit false

namespace Nvpy

/-- Opaque error objects returned by the simplenote adapter.  The code
only ever tests them for being present and, in `update_note_to_server`,
wraps an update error and a get error into a dict; we mirror that shape. -/
inductive ErrObj where
  | base (id : Nat)
  | updGet (update_error get_error : ErrObj)
  deriving DecidableEq, Repr

/-- The `Note` record of `notes_db.py` (a Python `dict`): every field the
program touches, each optional because a `dict` key may be absent. -/
structure Note where
  content : Option String := none
  tags : Option (List String) := none
  systemtags : Option (List String) := none
  createdate : Option Nat := none
  modifydate : Option Nat := none
  savedate : Option Nat := none
  syncdate : Option Nat := none
  key : Option String := none
  version : Option Nat := none
  deleted : Option Nat := none
  deriving DecidableEq, Repr

/-- Field-wise `dict.update` step: the right value wins when present. -/
def upd_field {α : Type} (a b : Option α) : Option α :=
  match b with
  | some v => some v
  | none => a

namespace Note

/-- `Note.need_save`: `float(self["savedate"])` is read first, then the
short-circuit `or` over `modifydate` and `syncdate` (a missing key raises
`KeyError`, hence the `Option` monad). -/
def need_save (n : Note) : Option Bool := do
  let savedate ← n.savedate
  let md ← n.modifydate
  if md > savedate then
    pure true
  else do
    let sd ← n.syncdate
    pure (sd > savedate)

/-- `Note.need_sync_to_server`: true when the note has no key, or when it
has been modified since the last sync (short-circuit `or`). -/
def need_sync_to_server (n : Note) : Option Bool :=
  match n.key with
  | none => some true
  | some _ => do
    let md ← n.modifydate
    let sd ← n.syncdate
    pure (md > sd)

/-- `Note.is_identical`: copies of both dicts with `savedate`/`syncdate`
forced to `0`, equal iff the symmetric difference of their item sets is
empty, i.e. iff the two dicts are equal. -/
def is_identical (a b : Note) : Bool :=
  let a2 : Note := { a with savedate := some 0, syncdate := some 0 }
  let b2 : Note := { b with savedate := some 0, syncdate := some 0 }
  a2 = b2

/-- `dict.update`: fields present in the right argument override the left. -/
def update (a b : Note) : Note where
  content := upd_field a.content b.content
  tags := upd_field a.tags b.tags
  systemtags := upd_field a.systemtags b.systemtags
  createdate := upd_field a.createdate b.createdate
  modifydate := upd_field a.modifydate b.modifydate
  savedate := upd_field a.savedate b.savedate
  syncdate := upd_field a.syncdate b.syncdate
  key := upd_field a.key b.key
  version := upd_field a.version b.version
  deleted := upd_field a.deleted b.deleted

end Note

/-- `NoteStatus` named tuple. -/
structure NoteStatus where
  saved : Bool
  synced : Bool
  modified : Bool
  full_syncing : Bool
  deriving DecidableEq, Repr

/-- `NotesDB.get_note_status`: with a non-None key, looks the note up
(`KeyError` if absent), reads the three dates, and reports
`saved = savedate > modifydate`, else `modified`; `synced = syncdate >
modifydate`. -/
def get_note_status (notes : List (String × Note)) (key : Option String)
    (full_syncing : Bool) : Option NoteStatus :=
  match key with
  | none => some ⟨false, false, false, full_syncing⟩
  | some k => do
    let n ← notes.lookup k
    let modifydate ← n.modifydate
    let savedate ← n.savedate
    let syncdate ← n.syncdate
    pure ⟨decide (savedate > modifydate), decide (syncdate > modifydate),
      decide ¬(savedate > modifydate), full_syncing⟩

/-- `NotesDB.helper_save_note`: saves the note through the store, then
stamps `savedate` with the current time.  A `WriteError` from the store
propagates (modelled by `saveOk = false` giving `none`). -/
def helper_save_note (n : Note) (now : Nat) (saveOk : Bool) : Option Note :=
  if saveOk then some { n with savedate := some now } else none

/-- Split a character list at commas, accumulating the current chunk. -/
def split_commas_aux : List Char → List Char → List String
  | [], acc => [String.mk acc.reverse]
  | c :: cs, acc =>
    if c = ',' then String.mk acc.reverse :: split_commas_aux cs []
    else split_commas_aux cs (c :: acc)

/-- Modelled from the spec: `utils.sanitise_tags` is not under `src/`.
The spec describes the tag-adder as taking comma-separated tags and
sanitising them; we model sanitisation as splitting on commas and
dropping empty pieces. -/
def sanitise_tags (s : String) : List String :=
  (split_commas_aux s.data []).filter (fun t => ¬ t = "")

/-- Lexicographic strict order on character lists by code point, the
order Python uses to compare strings. -/
def chars_lt : List Char → List Char → Bool
  | [], [] => false
  | [], _ :: _ => true
  | _ :: _, [] => false
  | c :: cs, d :: ds =>
    if c.toNat < d.toNat then true
    else if d.toNat < c.toNat then false
    else chars_lt cs ds

/-- Python string comparison. -/
def str_lt (x y : String) : Bool := chars_lt x.data y.data

/-- Insert a string into a sorted list of strings (ascending). -/
def insert_sorted (x : String) : List String → List String
  | [] => [x]
  | y :: ys => if str_lt x y then x :: y :: ys else y :: insert_sorted x ys

/-- Insertion sort on strings, ascending, as Python `sorted`. -/
def sort_strings : List String → List String
  | [] => []
  | x :: xs => insert_sorted x (sort_strings xs)

/-- Python `sorted(set(l))`: the sorted list of the distinct elements. -/
def sorted_set (l : List String) : List String :=
  sort_strings l.dedup

/-- Modelled from the spec: `utils.note_pinned` is not under `src/`.
The spec says `system_tags` is a set of strings with a "pinned" marker,
so a note is pinned iff "pinned" is among its `systemtags` (an absent
`systemtags` key means not pinned). -/
def note_pinned (n : Note) : Bool :=
  "pinned" ∈ n.systemtags.getD []

/-- `NotesDB.set_note_content`: writes the content and refreshes
`modifydate` only when the new content differs from the old one
(`dict.get` returns `None` for a missing key, which never equals a
string, hence the comparison against `some content`). -/
def set_note_content (n : Note) (content : String) (now : Nat) : Note :=
  if ¬ (some content = n.content) then
    { n with content := some content, modifydate := some now }
  else n

/-- `NotesDB.delete_note`: unconditionally sets the tombstone flag and
refreshes `modifydate`. -/
def delete_note (n : Note) (now : Nat) : Note :=
  { n with deleted := some 1, modifydate := some now }

/-- `NotesDB.delete_note_tag`: `list.remove` drops the first occurrence
and raises `ValueError` when the tag is absent; `modifydate` is
refreshed unconditionally afterwards. -/
def delete_note_tag (n : Note) (tag : String) (now : Nat) : Option Note := do
  let tags ← n.tags
  if tag ∈ tags then
    pure { n with tags := some (tags.erase tag), modifydate := some now }
  else
    none

/-- `NotesDB.add_note_tags`: sanitises the comma-separated input, takes
`sorted(set(old) | set(new))`, and refreshes `modifydate`
unconditionally. -/
def add_note_tags (n : Note) (comma_separated_tags : String) (now : Nat) : Option Note := do
  let new_tags := sanitise_tags comma_separated_tags
  let tags ← n.tags
  pure { n with tags := some (sorted_set (tags ++ new_tags)), modifydate := some now }

/-- `NotesDB.set_note_pinned`: only acts when the requested pin state
differs from the current one; a missing `systemtags` key is initialised
to the empty list, then "pinned" is appended or removed and `modifydate`
refreshed. -/
def set_note_pinned (n : Note) (pinned : Bool) (now : Nat) : Note :=
  if ¬ (pinned = note_pinned n) then
    let st := n.systemtags.getD []
    if pinned then
      { n with systemtags := some (st ++ ["pinned"]), modifydate := some now }
    else
      { n with systemtags := some (st.erase "pinned"), modifydate := some now }
  else n

/-- Outcome of opening and json-parsing one persisted note file. -/
inductive FileOutcome where
  | parsed (n : Note)
  | ioError
  | valueError
  deriving DecidableEq, Repr

/-- The exception escaping a failed load: the ReadError wrapper the code
defines for this purpose, or an unwrapped IOError / ValueError. -/
inductive LoadFailure where
  | readError
  | rawIOError
  | rawValueError
  deriving DecidableEq, Repr

/-- `FileStore.read_all_json`: iterates the persisted `*.json` files,
parses each one with no exception handler (an `IOError` from `open` or a
`ValueError` from `json.load` propagates unwrapped, discarding every
note parsed so far), stamps `savedate = now` on each loaded note. -/
def read_all_json (now : Nat) :
    List (String × FileOutcome) → Except LoadFailure (List (String × Note))
  | [] => Except.ok []
  | (fn, FileOutcome.parsed n) :: rest =>
    match read_all_json now rest with
    | Except.ok notes => Except.ok ((fn, { n with savedate := some now }) :: notes)
    | Except.error e => Except.error e
  | (_, FileOutcome.ioError) :: _ => Except.error LoadFailure.rawIOError
  | (_, FileOutcome.valueError) :: _ => Except.error LoadFailure.rawValueError

/-- The file content left by `Path.write_text` when the process crashes
after `k` characters were written (opening for writing truncates the
file first), or the whole new content when the write completes. -/
def write_text_crash (new : String) (crashAt : Option Nat) : String :=
  match crashAt with
  | none => new
  | some k => String.mk (new.data.take k)

/-- `FileStore.save_json`: with simplenote sync off and a tombstoned
note, the backing file is unlinked; otherwise the serialized note is
written in place over the existing file with `Path.write_text`.  The
result is the backing file content afterwards (`none` = no file). -/
def save_json (simplenote_sync : Bool) (n : Note) (serialized : String)
    (crashAt : Option Nat) : Option String :=
  if ¬ simplenote_sync ∧ ¬ (n.deleted.getD 0 = 0) then
    none
  else
    some (write_text_crash serialized crashAt)

/-- `UpdateResult` named tuple. -/
structure UpdateResult where
  note : Option Note
  is_updated : Bool
  error_object : Option ErrObj
  deriving DecidableEq, Repr

/-- The responses the simplenote server would give during one
`update_note_to_server` call: to the `update_note` RPC and to the
recovery `get_note` RPC. -/
structure ServerResp where
  upd : Except ErrObj Note
  get : Except ErrObj Note

/-- `NotesDB.update_note_to_server`: tries the update RPC; on success
merges the reply over a copy of the local note (the debug log then reads
the merged key, raising `KeyError` when absent, hence `Option`).  On
failure with a remote key it fetches the server copy: if that copy is
identical to the local note modulo bookkeeping the error is treated as
benign and success is returned without re-sending; otherwise the update
error (or the pair of errors) is surfaced. -/
def update_note_to_server (note : Note) (srv : ServerResp) : Option UpdateResult :=
  match srv.upd with
  | Except.ok o =>
    let new_note := note.update o
    match new_note.key with
    | some _ => some { note := some new_note, is_updated := true, error_object := none }
    | none => none
  | Except.error update_error =>
    match note.key with
    | some _ =>
      match srv.get with
      | Except.ok remote_note =>
        if note.is_identical remote_note then
          some { note := some note, is_updated := false, error_object := none }
        else
          some { note := none, is_updated := false, error_object := some update_error }
      | Except.error get_error =>
        some { note := none, is_updated := false,
               error_object := some (ErrObj.updGet update_error get_error) }
    | none =>
      some { note := none, is_updated := false, error_object := some update_error }

/-- The partial-to-server sync action constant (source value 1, named
ACTION_SYNC_..._TO_SERVER there). -/
def ACTION_SYNC_TO_SERVER : Nat := 1

/-- `_BackgroundTaskReslt` named tuple (source spelling). -/
structure BackgroundTaskReslt where
  action : Nat
  key : String
  note : Option Note
  error : Nat
  deriving DecidableEq, Repr

/-- Python dict assignment `notes[k] = n` for a key already present. -/
def set_note (notes : List (String × Note)) (k : String) (n : Note) :
    List (String × Note) :=
  notes.map (fun p => if p.1 = k then (k, n) else p)

/-- `NotesDB._worker_sync_to_server`: the body of one partial-sync task.
`notes1` is the table during the first critical section (snapshot time)
and `notes2` the table during the second one (merge time); a foreground
edit during the server round trip is modelled by `notes2` differing from
`notes1`.  `syncdate` is the clock value read in the first critical
section.  Returns the table as of the return point, the
`_BackgroundTaskReslt`, and whether the server was contacted. -/
def worker_sync_to_server (notes1 notes2 : List (String × Note)) (key : String)
    (syncdate : Nat) (srv : ServerResp) :
    Option (List (String × Note) × BackgroundTaskReslt × Bool) := do
  let note ← notes1.lookup key
  let needSync ← note.need_sync_to_server
  if needSync = false then
    -- The note already synced with server: report success, no RPC made.
    pure (notes1, ⟨ACTION_SYNC_TO_SERVER, key, none, 0⟩, false)
  else
    let local_note := note
    let result ← update_note_to_server local_note srv
    match result.error_object with
    | some _ => pure (notes2, ⟨ACTION_SYNC_TO_SERVER, key, none, 1⟩, true)
    | none => do
      let note ← notes2.lookup key
      let remote_note ← result.note
      let lmd ← local_note.modifydate
      let nmd ← note.modifydate
      if lmd < nmd then do
        -- The user changed the note during the round trip: absorb only
        -- the server version, the fresh syncdate and the server key.
        let v ← remote_note.version
        let rk ← remote_note.key
        pure (set_note notes2 key
            { note with version := some v, syncdate := some syncdate, key := some rk },
          ⟨ACTION_SYNC_TO_SERVER, key, none, 0⟩, true)
      else
        -- An absent content in the reply never erases local content:
        -- `upd_field` keeps the left value when the right one is absent,
        -- which is also what popping the missing content achieves.
        let merged := if result.is_updated then note.update remote_note else note
        pure (set_note notes2 key { merged with syncdate := some syncdate },
          ⟨ACTION_SYNC_TO_SERVER, key, none, 0⟩, true)

/-- Step 3 of `NotesDB.sync_full_unthreaded`: walk the local keys; a key
absent from the authoritative server list is kept when its `syncdate`
is `0` (created during step 1 or 2), otherwise dropped from the table
and recorded in `local_deletes`.  (The peripheral txt-mirror unlink
behind `config.notes_as_txt` is not modelled.)  A missing `syncdate`
key would raise, hence `Option`. -/
def prune_absent_notes :
    List (String × Note) → List String →
    Option (List (String × Note) × List String)
  | [], _ => some ([], [])
  | (lk, n) :: rest, server_keys =>
    if lk ∈ server_keys then
      match prune_absent_notes rest server_keys with
      | some (notes, dels) => some ((lk, n) :: notes, dels)
      | none => none
    else
      match n.syncdate with
      | none => none
      | some sd =>
        if sd = 0 then
          match prune_absent_notes rest server_keys with
          | some (notes, dels) => some ((lk, n) :: notes, dels)
          | none => none
        else
          match prune_absent_notes rest server_keys with
          | some (notes, dels) => some (notes, lk :: dels)
          | none => none

/-- Step 5 of `NotesDB.sync_full_unthreaded`: `store.delete` for every
recorded local delete removes the backing file when it exists. -/
def delete_files (files : List String) (dels : List String) : List String :=
  files.filter (fun f => ¬ f ∈ dels)

/-- A concrete sample note used to instantiate theorems with hypotheses. -/
def sampleNote : Note :=
  { content := some "a", tags := some ["work", "x"], modifydate := some 5 }

/-- A concrete sample note carrying a single tag "work". -/
def workNote : Note :=
  { tags := some ["work"], modifydate := some 0 }

/-- Local-only sample note as snapshotted before a round trip. -/
def draftNote : Note :=
  { content := some "draft", tags := some [], createdate := some 10,
    modifydate := some 10, savedate := some 0, syncdate := some 0 }

/-- The same note after the user kept typing during the round trip. -/
def draftNote2 : Note :=
  { content := some "draft more", tags := some [], createdate := some 10,
    modifydate := some 20, savedate := some 0, syncdate := some 0 }

/-- A server reply assigning key K7 and version 1 to the new note. -/
def serverReply : Note :=
  { key := some "K7", version := some 1, modifydate := some 10 }

/-- A server interaction whose update RPC succeeds with `serverReply`. -/
def okSrv : ServerResp :=
  { upd := Except.ok serverReply, get := Except.error (ErrObj.base 0) }

/-- A synced sample note holding remote key K1. -/
def syncedNote : Note :=
  { content := some "c", tags := some ["t"], createdate := some 1,
    modifydate := some 5, savedate := some 9, syncdate := some 8,
    key := some "K1", version := some 3 }

/-- The server copy of `syncedNote`: same except the bookkeeping dates. -/
def remoteTwin : Note :=
  { content := some "c", tags := some ["t"], createdate := some 1,
    modifydate := some 5, savedate := some 77, syncdate := some 88,
    key := some "K1", version := some 3 }

/-- A server interaction whose update RPC fails but whose recovery fetch
returns `remoteTwin`. -/
def failSrv : ServerResp :=
  { upd := Except.error (ErrObj.base 9), get := Except.ok remoteTwin }

/-- Sample table at snapshot time: the draft under local key L. -/
def tableBefore : List (String × Note) := [("L", draftNote)]

/-- Sample table at merge time: the user kept editing the draft. -/
def tableAfter : List (String × Note) := [("L", draftNote2)]

/-- A note that has synced before (non-zero syncdate). -/
def prunedNote : Note := { content := some "p", syncdate := some 7 }

/-- A note created locally and never synced (zero syncdate). -/
def freshNote : Note := { content := some "f", syncdate := some 0 }

/-- Sample table for the prune step. -/
def pruneTable : List (String × Note) := [("a", prunedNote), ("b", freshNote)]

end Nvpy

namespace Nvpy

/-- C6: `need_save` holds iff `modifydate > savedate` or
`syncdate > savedate`, and a note freshly saved at time `now` whose
`modifydate` and `syncdate` do not exceed `now` does not need local save. -/
theorem c6_need_save_iff (n : Note) (sv md sd : Nat)
    (hsv : n.savedate = some sv) (hmd : n.modifydate = some md)
    (hsd : n.syncdate = some sd) :
    (n.need_save = some true ↔ (md > sv ∨ sd > sv)) ∧
    (∀ (now : Nat) (n2 : Note), helper_save_note n now true = some n2 →
      md ≤ now → sd ≤ now → n2.need_save = some false) := by
  constructor
  · rw [Note.need_save, hsv, hmd, hsd]
    by_cases h : md > sv <;> simp [h]
  · intro now n2 hsave hmd2 hsd2
    rw [helper_save_note] at hsave
    simp only [if_pos] at hsave
    cases hsave
    rw [Note.need_save]
    simp only [hmd, hsd]
    have h1 : ¬ (md > now) := by omega
    simp [h1]
    omega

/-- Witness for C6 at a concrete note. -/
theorem c6_need_save_iff_witness :
    (({ savedate := some 5, modifydate := some 7, syncdate := some 3 } : Note).need_save
        = some true ↔ (7 > 5 ∨ 3 > 5)) ∧
    (∀ (now : Nat) (n2 : Note),
      helper_save_note ({ savedate := some 5, modifydate := some 7, syncdate := some 3 } : Note)
          now true = some n2 →
      7 ≤ now → 3 ≤ now → n2.need_save = some false) :=
  c6_need_save_iff _ 5 7 3 rfl rfl rfl

/-- C10: for a note with numeric dates, exactly one of `saved` and
`modified` is reported (saved iff `savedate > modifydate`, modified
otherwise, so the boundary `savedate = modifydate` is modified), and
`synced` holds iff `syncdate` strictly exceeds `modifydate`. -/
theorem c10_get_note_status (notes : List (String × Note)) (k : String) (n : Note)
    (fs : Bool) (md sv sd : Nat)
    (hn : notes.lookup k = some n)
    (hmd : n.modifydate = some md) (hsv : n.savedate = some sv)
    (hsd : n.syncdate = some sd) :
    ∃ st : NoteStatus, get_note_status notes (some k) fs = some st ∧
      (st.saved = !st.modified) ∧
      (st.saved = true ↔ sv > md) ∧
      (sv = md → st.modified = true ∧ st.saved = false) ∧
      (st.synced = true ↔ sd > md) := by
  refine ⟨⟨decide (sv > md), decide (sd > md), decide ¬(sv > md), fs⟩, ?_, ?_, ?_, ?_, ?_⟩
  · rw [get_note_status]
    simp [hn, hmd, hsv, hsd]
  · by_cases h : sv > md <;> simp [h]
  · simp
  · intro h
    have h2 : ¬ (sv > md) := by omega
    simp [h2]
  · simp

/-- C4, counterexample: `delete_note` on an already-deleted note leaves
the `deleted` value unchanged yet still advances `modifydate`, so the
claim that every foreground mutation is a `modifydate`-preserving no-op
when the new value equals the old one is false. -/
theorem c4_counterexample :
    (delete_note ({ deleted := some 1, modifydate := some 5 } : Note) 10).deleted
        = ({ deleted := some 1, modifydate := some 5 } : Note).deleted ∧
    ¬ ((delete_note ({ deleted := some 1, modifydate := some 5 } : Note) 10).modifydate
        = ({ deleted := some 1, modifydate := some 5 } : Note).modifydate) := by
  constructor
  · rfl
  · intro h
    simp [delete_note] at h

/-- C4, amended: `set_note_content` and `set_note_pinned` advance
`modifydate` only when the new value differs from the old (equal-value
calls are no-ops), while `delete_note`, `add_note_tags` and
`delete_note_tag` refresh `modifydate` unconditionally on every call
(`delete_note_tag` raising when the tag is absent). -/
theorem c4_amended (n : Note) (c1 c2 tag s : String) (p : Bool) (ts : List String) (now : Nat)
    (h1 : n.content = some c1) (h2 : ¬ (n.content = some c2))
    (h3 : note_pinned n = p) (h4 : n.tags = some ts) (h5 : tag ∈ ts) :
    set_note_content n c1 now = n ∧
    set_note_content n c2 now = { n with content := some c2, modifydate := some now } ∧
    set_note_pinned n p now = n ∧
    delete_note n now = { n with deleted := some 1, modifydate := some now } ∧
    add_note_tags n s now = some { n with tags := some (sorted_set (ts ++ sanitise_tags s)), modifydate := some now } ∧
    delete_note_tag n tag now = some { n with tags := some (ts.erase tag), modifydate := some now } := by
  refine ⟨?_, ?_, ?_, rfl, ?_, ?_⟩
  · simp [set_note_content, h1]
  · simp only [set_note_content]
    rw [if_pos]
    intro hc
    exact h2 hc.symm
  · simp [set_note_pinned, h3]
  · simp [add_note_tags, h4]
  · simp [delete_note_tag, h4, h5]

/-- Witness for C4 amended, at the concrete sample note. -/
theorem c4_amended_witness :
    (sampleNote.content = some "a") ∧
    (¬ (sampleNote.content = some "b")) ∧
    (note_pinned sampleNote = false) ∧
    (sampleNote.tags = some ["work", "x"]) ∧
    ("work" ∈ ["work", "x"]) ∧
    (set_note_content sampleNote "a" 10 = sampleNote ∧
    set_note_content sampleNote "b" 10 = { sampleNote with content := some "b", modifydate := some 10 } ∧
    set_note_pinned sampleNote false 10 = sampleNote ∧
    delete_note sampleNote 10 = { sampleNote with deleted := some 1, modifydate := some 10 } ∧
    add_note_tags sampleNote "urgent" 10 = some { sampleNote with tags := some (sorted_set (["work", "x"] ++ sanitise_tags "urgent")), modifydate := some 10 } ∧
    delete_note_tag sampleNote "work" 10 = some { sampleNote with tags := some (["work", "x"].erase "work"), modifydate := some 10 }) :=
  ⟨rfl, by decide, rfl, rfl, by decide,
    c4_amended sampleNote "a" "b" "work" "urgent" false ["work", "x"] 10
      rfl (by decide) rfl rfl (by decide)⟩

/-- C8: the tag-adder sets the tags to the sorted union of the existing
tags and the sanitised new tags and stamps `modifydate` with the current
time (one single assignment per call); in the concrete scenario, adding
"work,urgent" to a note tagged only "work" yields the sorted distinct
tag list consisting of "urgent" and "work". -/
theorem c8_add_note_tags (n : Note) (ts : List String) (s : String) (now : Nat)
    (h : n.tags = some ts) :
    add_note_tags n s now = some { n with tags := some (sorted_set (ts ++ sanitise_tags s)), modifydate := some now } ∧
    (∃ n2 : Note,
      add_note_tags workNote "work,urgent" now = some n2 ∧
      n2.tags = some ["urgent", "work"] ∧ n2.modifydate = some now) := by
  constructor
  · simp [add_note_tags, h]
  · refine ⟨_, rfl, ?_, rfl⟩
    show some (sorted_set (["work"] ++ sanitise_tags "work,urgent")) = some ["urgent", "work"]
    decide

/-- Witness for C8 at the concrete sample note. -/
theorem c8_add_note_tags_witness :
    (workNote.tags = some ["work"]) ∧
    (add_note_tags workNote "work,urgent" 42 = some { workNote with tags := some (sorted_set (["work"] ++ sanitise_tags "work,urgent")), modifydate := some 42 } ∧
    (∃ n2 : Note,
      add_note_tags workNote "work,urgent" 42 = some n2 ∧
      n2.tags = some ["urgent", "work"] ∧ n2.modifydate = some 42)) :=
  ⟨rfl, c8_add_note_tags workNote ["work"] "work,urgent" 42 rfl⟩

/-- Witness for C10 at a concrete table: a note whose `savedate` equals
its `modifydate` is reported modified, not saved. -/
theorem c10_get_note_status_witness :
    ∃ st : NoteStatus,
      get_note_status
        [("k1", ({ modifydate := some 4, savedate := some 4, syncdate := some 9 } : Note))]
        (some "k1") false = some st ∧
      (st.saved = !st.modified) ∧
      (st.saved = true ↔ 4 > 4) ∧
      (4 = 4 → st.modified = true ∧ st.saved = false) ∧
      (st.synced = true ↔ 9 > 4) :=
  c10_get_note_status _ "k1" _ false 4 4 9 rfl rfl rfl rfl

end Nvpy

namespace Nvpy

/-- C5: in the default JSON mode a malformed persisted note file aborts
the whole load (no partial mapping is returned), but the exception that
escapes is the unwrapped parse error, not the `ReadError` the spec
prescribes — `read_all_json` has no exception handler, unlike its
sibling `read_all_txt`. -/
theorem c5_read_all_json_unwrapped_error :
    read_all_json 100
        [("k1", FileOutcome.parsed { content := some "x" }), ("k2", FileOutcome.valueError)]
      = Except.error LoadFailure.rawValueError ∧
    ¬ (LoadFailure.rawValueError = LoadFailure.readError) := by
  exact ⟨rfl, by decide⟩

/-- C9: `save_json` rewrites the backing file in place (truncate, then
write), so a crash after one character leaves the file holding a strict
prefix of the new content — neither the whole old content nor the whole
new content.  The claimed crash atomicity does not hold. -/
theorem c9_save_json_not_crash_atomic :
    save_json true ({ content := some "x" } : Note) "new" (some 1) = some "n" ∧
    ¬ (("n" : String) = "old") ∧
    ¬ (("n" : String) = "new") := by
  refine ⟨by decide, by decide, by decide⟩

/-- C2: when the update RPC for a note that already has a remote key
fails but the recovery fetch returns a copy identical to the local note
modulo the `savedate`/`syncdate` bookkeeping, `update_note_to_server`
returns success (error object `none`) carrying the local note, without
any second update RPC (the function performs at most one). -/
theorem c2_update_recovery (note remote : Note) (k : String) (e : ErrObj) (srv : ServerResp)
    (hk : note.key = some k) (hupd : srv.upd = Except.error e)
    (hget : srv.get = Except.ok remote)
    (hid : note.is_identical remote = true) :
    update_note_to_server note srv
      = some { note := some note, is_updated := false, error_object := none } := by
  simp only [update_note_to_server, hupd, hget, hk, hid, if_true]

/-- Witness for C2: a concrete synced note whose server copy differs
only in the bookkeeping dates. -/
theorem c2_update_recovery_witness :
    (syncedNote.key = some "K1") ∧
    (failSrv.upd = Except.error (ErrObj.base 9)) ∧
    (failSrv.get = Except.ok remoteTwin) ∧
    (syncedNote.is_identical remoteTwin = true) ∧
    update_note_to_server syncedNote failSrv
      = some { note := some syncedNote, is_updated := false, error_object := none } :=
  ⟨rfl, rfl, rfl, by decide,
    c2_update_recovery syncedNote remoteTwin "K1" (ErrObj.base 9) failSrv rfl rfl rfl
      (by decide)⟩

/-- C7: a sync task for a note that does not need syncing (it has a
remote key and its `modifydate` does not exceed its `syncdate`) returns
a success result (`error = 0`) for every possible server behaviour,
without contacting the server and without modifying the table. -/
theorem c7_skip_synced_note (notes1 notes2 : List (String × Note)) (key k0 : String)
    (sd md sy : Nat) (srv : ServerResp) (n : Note)
    (h : notes1.lookup key = some n) (hk : n.key = some k0)
    (hmd : n.modifydate = some md) (hsy : n.syncdate = some sy) (hle : md ≤ sy) :
    worker_sync_to_server notes1 notes2 key sd srv
      = some (notes1, ⟨ACTION_SYNC_TO_SERVER, key, none, 0⟩, false) := by
  have hns : n.need_sync_to_server = some false := by
    rw [Note.need_sync_to_server, hk]
    simp [hmd, hsy]
    omega
  simp [worker_sync_to_server, h, hns]

/-- Witness for C7: the synced sample note is skipped for an arbitrary
concrete server behaviour. -/
theorem c7_skip_synced_note_witness :
    ([("K1", syncedNote)].lookup "K1" = some syncedNote) ∧
    (syncedNote.key = some "K1") ∧
    (syncedNote.modifydate = some 5) ∧
    (syncedNote.syncdate = some 8) ∧
    (5 ≤ 8) ∧
    worker_sync_to_server [("K1", syncedNote)] [("K1", syncedNote)] "K1" 42 okSrv
      = some ([("K1", syncedNote)], ⟨ACTION_SYNC_TO_SERVER, "K1", none, 0⟩, false) :=
  ⟨rfl, rfl, rfl, rfl, by decide,
    c7_skip_synced_note [("K1", syncedNote)] [("K1", syncedNote)] "K1" "K1" 42 5 8 okSrv
      syncedNote rfl rfl rfl rfl (by decide)⟩

/-- C1: when the live note changed during the round trip (its
`modifydate` strictly exceeds the snapshot one), the merge writes back
the live note with only `version`, `key` and `syncdate` replaced — every
other field, the content in particular, keeps the live value and the
server echo is never applied. -/
theorem c1_inflight_edit_merge
    (notes1 notes2 : List (String × Note)) (key : String) (sd : Nat) (srv : ServerResp)
    (n1 n2 rn : Note) (r : UpdateResult) (m1 m2 v : Nat) (rk : String)
    (h1 : notes1.lookup key = some n1)
    (hns : n1.need_sync_to_server = some true)
    (hr : update_note_to_server n1 srv = some r)
    (hre : r.error_object = none) (hrn : r.note = some rn)
    (h2 : notes2.lookup key = some n2)
    (hm1 : n1.modifydate = some m1) (hm2 : n2.modifydate = some m2) (hlt : m1 < m2)
    (hv : rn.version = some v) (hrk : rn.key = some rk) :
    worker_sync_to_server notes1 notes2 key sd srv
      = some (set_note notes2 key
            { n2 with version := some v, syncdate := some sd, key := some rk },
          ⟨ACTION_SYNC_TO_SERVER, key, none, 0⟩, true) ∧
    (∀ m : Note,
      m = { n2 with version := some v, syncdate := some sd, key := some rk } →
      m.content = n2.content ∧ m.tags = n2.tags ∧ m.systemtags = n2.systemtags ∧
      m.createdate = n2.createdate ∧ m.modifydate = n2.modifydate ∧
      m.savedate = n2.savedate ∧ m.deleted = n2.deleted ∧
      m.version = some v ∧ m.key = some rk ∧ m.syncdate = some sd) := by
  constructor
  · simp [worker_sync_to_server, h1, hns, hr, hre, hrn, h2, hm1, hm2, hlt, hv, hrk]
  · intro m hm
    subst hm
    exact ⟨rfl, rfl, rfl, rfl, rfl, rfl, rfl, rfl, rfl, rfl⟩

/-- Witness for C1: the draft gains key K7 and version 1 but keeps the
content typed during the round trip. -/
theorem c1_inflight_edit_merge_witness :
    (tableBefore.lookup "L" = some draftNote) ∧
    (draftNote.need_sync_to_server = some true) ∧
    (update_note_to_server draftNote okSrv
      = some { note := some (draftNote.update serverReply), is_updated := true,
               error_object := none }) ∧
    (tableAfter.lookup "L" = some draftNote2) ∧
    (draftNote.modifydate = some 10) ∧ (draftNote2.modifydate = some 20) ∧ (10 < 20) ∧
    ((draftNote.update serverReply).version = some 1) ∧
    ((draftNote.update serverReply).key = some "K7") ∧
    (worker_sync_to_server tableBefore tableAfter "L" 30 okSrv
      = some (set_note tableAfter "L"
            { draftNote2 with version := some 1, syncdate := some 30, key := some "K7" },
          ⟨ACTION_SYNC_TO_SERVER, "L", none, 0⟩, true) ∧
    (∀ m : Note,
      m = { draftNote2 with version := some 1, syncdate := some 30, key := some "K7" } →
      m.content = draftNote2.content ∧ m.tags = draftNote2.tags ∧
      m.systemtags = draftNote2.systemtags ∧
      m.createdate = draftNote2.createdate ∧ m.modifydate = draftNote2.modifydate ∧
      m.savedate = draftNote2.savedate ∧ m.deleted = draftNote2.deleted ∧
      m.version = some 1 ∧ m.key = some "K7" ∧ m.syncdate = some 30)) :=
  ⟨rfl, rfl, by decide, rfl, rfl, rfl, by decide, by decide, by decide,
    c1_inflight_edit_merge tableBefore tableAfter "L" 30 okSrv draftNote draftNote2
      (draftNote.update serverReply)
      { note := some (draftNote.update serverReply), is_updated := true, error_object := none }
      10 20 1 "K7" rfl rfl (by decide) rfl rfl rfl rfl rfl (by decide) (by decide) (by decide)⟩

/-- In a table with distinct keys, the record held at a key is unique. -/
theorem assoc_mem_unique (l : List (String × Note)) (k : String) (a b : Note)
    (hnd : (l.map Prod.fst).Nodup) (ha : (k, a) ∈ l) (hb : (k, b) ∈ l) : a = b := by
  induction l with
  | nil => cases ha
  | cons p rest ih =>
    obtain ⟨pk, pn⟩ := p
    simp only [List.map_cons, List.nodup_cons] at hnd
    rcases List.mem_cons.mp ha with ha1 | ha1
    · injection ha1 with hk1 ha2
      rcases List.mem_cons.mp hb with hb1 | hb1
      · injection hb1 with hk2 hb2
        rw [ha2, hb2]
      · exfalso
        apply hnd.1
        rw [← hk1]
        exact List.mem_map.mpr ⟨(k, b), hb1, rfl⟩
    · rcases List.mem_cons.mp hb with hb1 | hb1
      · injection hb1 with hk2 hb2
        exfalso
        apply hnd.1
        rw [← hk2]
        exact List.mem_map.mpr ⟨(k, a), ha1, rfl⟩
      · exact ih hnd.2 ha1 hb1

/-- The predicate deciding survival of the prune step: the key is on the
server list, or the note has never synced. -/
def prune_keep (sks : List String) (p : String × Note) : Bool :=
  decide (p.1 ∈ sks) || decide (p.2.syncdate = some 0)

/-- The predicate deciding pruning: absent from the server list and
synced at least once before. -/
def prune_drop (sks : List String) (p : String × Note) : Bool :=
  !decide (p.1 ∈ sks) && !decide (p.2.syncdate = some 0)

/-- When the prune walk succeeds, the surviving table is the filter of
the notes whose key is on the server list or whose syncdate is zero, and
the recorded local deletes are the keys of the complement. -/
theorem prune_absent_notes_eq (notes : List (String × Note)) (sks : List String)
    (notes3 : List (String × Note)) (dels : List String)
    (hp : prune_absent_notes notes sks = some (notes3, dels)) :
    notes3 = notes.filter (prune_keep sks) ∧
    dels = (notes.filter (prune_drop sks)).map Prod.fst := by
  induction notes generalizing notes3 dels with
  | nil =>
    rw [prune_absent_notes] at hp
    cases hp
    exact ⟨rfl, rfl⟩
  | cons p rest ih =>
    obtain ⟨lk, m⟩ := p
    by_cases hmem : lk ∈ sks
    · cases hrec : prune_absent_notes rest sks with
      | none =>
        rw [prune_absent_notes] at hp
        simp only [hmem, if_true, hrec] at hp
        cases hp
      | some res =>
        obtain ⟨notes4, dels4⟩ := res
        rw [prune_absent_notes] at hp
        simp only [hmem, if_true, hrec] at hp
        cases hp
        obtain ⟨ih1, ih2⟩ := ih _ _ hrec
        subst ih1
        subst ih2
        constructor
        · simp [List.filter_cons, prune_keep, hmem]
        · simp [List.filter_cons, prune_drop, hmem]
    · cases hsd : m.syncdate with
      | none =>
        rw [prune_absent_notes] at hp
        simp only [hmem, if_false, hsd] at hp
        cases hp
      | some sd =>
        by_cases hz : sd = 0
        · cases hrec : prune_absent_notes rest sks with
          | none =>
            rw [prune_absent_notes] at hp
            simp only [hmem, if_false, hsd, hz, if_true, hrec] at hp
            cases hp
          | some res =>
            obtain ⟨notes4, dels4⟩ := res
            rw [prune_absent_notes] at hp
            simp only [hmem, if_false, hsd, hz, if_true, hrec] at hp
            cases hp
            obtain ⟨ih1, ih2⟩ := ih _ _ hrec
            subst ih1
            subst ih2
            constructor
            · simp [List.filter_cons, prune_keep, hmem, hsd, hz]
            · simp [List.filter_cons, prune_drop, hmem, hsd, hz]
        · cases hrec : prune_absent_notes rest sks with
          | none =>
            rw [prune_absent_notes] at hp
            simp only [hmem, if_false, hsd, hz, if_false, hrec] at hp
            cases hp
          | some res =>
            obtain ⟨notes4, dels4⟩ := res
            rw [prune_absent_notes] at hp
            simp only [hmem, if_false, hsd, hz, if_false, hrec] at hp
            cases hp
            obtain ⟨ih1, ih2⟩ := ih _ _ hrec
            subst ih1
            subst ih2
            constructor
            · simp [List.filter_cons, prune_keep, hmem, hsd, hz]
            · simp [List.filter_cons, prune_drop, hmem, hsd, hz]

/-- C3: during the prune step of a full sync, a local note whose key is
absent from the authoritative server list is removed from the table and
its backing file deleted when its `syncdate` is non-zero, and preserved
in the table when its `syncdate` is zero. -/
theorem c3_prune_absent (notes : List (String × Note)) (server_keys files dels : List String)
    (notes3 : List (String × Note)) (k : String) (n : Note) (sd : Nat)
    (hnd : (notes.map Prod.fst).Nodup)
    (hk : (k, n) ∈ notes) (habs : ¬ k ∈ server_keys)
    (hsd : n.syncdate = some sd)
    (hp : prune_absent_notes notes server_keys = some (notes3, dels)) :
    (¬ sd = 0 →
      ¬ k ∈ notes3.map Prod.fst ∧ k ∈ dels ∧ ¬ k ∈ delete_files files dels) ∧
    (sd = 0 → (k, n) ∈ notes3) := by
  obtain ⟨he1, he2⟩ := prune_absent_notes_eq notes server_keys notes3 dels hp
  subst he1
  subst he2
  constructor
  · intro hnz
    have hdel : k ∈ (notes.filter (prune_drop server_keys)).map Prod.fst := by
      refine List.mem_map.mpr ⟨(k, n), List.mem_filter.mpr ⟨hk, ?_⟩, rfl⟩
      simp [prune_drop, habs, hsd, hnz]
    refine ⟨?_, hdel, ?_⟩
    · intro hmem
      obtain ⟨q, hq, hqk⟩ := List.mem_map.mp hmem
      obtain ⟨qk, qn⟩ := q
      obtain ⟨hqmem, hqcond⟩ := List.mem_filter.mp hq
      simp only at hqk
      rw [hqk] at hqmem hqcond
      have hqn : qn = n := assoc_mem_unique notes k qn n hnd hqmem hk
      rw [hqn] at hqcond
      simp [prune_keep, habs, hsd, hnz] at hqcond
    · intro hfile
      rw [delete_files, List.mem_filter] at hfile
      have hnotin := hfile.2
      simp only [decide_eq_true_eq] at hnotin
      exact hnotin hdel
  · intro hz
    refine List.mem_filter.mpr ⟨hk, ?_⟩
    simp [prune_keep, hsd, hz]

/-- Witness for C3: against an empty authoritative list, the previously
synced note "a" is pruned and its file deleted, while the never-synced
note "b" survives in the filtered table. -/
theorem c3_prune_absent_witness :
    ((pruneTable.map Prod.fst).Nodup) ∧
    (("a", prunedNote) ∈ pruneTable) ∧
    (¬ "a" ∈ ([] : List String)) ∧
    (prunedNote.syncdate = some 7) ∧
    (prune_absent_notes pruneTable [] = some ([("b", freshNote)], ["a"])) ∧
    ((¬ (7 : Nat) = 0 →
      ¬ "a" ∈ ([("b", freshNote)] : List (String × Note)).map Prod.fst ∧ "a" ∈ ["a"] ∧
      ¬ "a" ∈ delete_files ["a", "b"] ["a"]) ∧
    ((7 : Nat) = 0 → ("a", prunedNote) ∈ ([("b", freshNote)] : List (String × Note)))) := by
  have hp : prune_absent_notes pruneTable [] = some ([("b", freshNote)], ["a"]) := by decide
  have hfilter1 : ([("b", freshNote)] : List (String × Note))
      = pruneTable.filter (prune_keep []) := by decide
  have hfilter2 : (["a"] : List String)
      = (pruneTable.filter (prune_drop [])).map Prod.fst := by decide
  refine ⟨by decide, by decide, by decide, rfl, hp, ?_⟩
  rw [hfilter1, hfilter2]
  exact c3_prune_absent pruneTable [] ["a", "b"]
    ((pruneTable.filter (prune_drop [])).map Prod.fst) (pruneTable.filter (prune_keep []))
    "a" prunedNote 7 (by decide) (by decide) (by decide) rfl
    (by rw [← hfilter1, ← hfilter2]; exact hp)

end Nvpy
